import Mathlib

/-!
# Verification of the CodeWiki dependency-graph and module-clustering core

Shallow embedding of the graph builder of the CodeWiki repository
(`src/dependency_analyzer/ast_parser.py`), leaf filtering
(`src/dependency_analyzer/dependency_graphs_builder.py`) and recursive
module clustering engine (`src/cluster_modules.py`), together with proofs
and refutations of the specification's claims about them.

Modelling conventions:
- Python `dict`s (insertion ordered, unique string keys) are association
  lists `List (String × α)`; update keeps the position of an existing key,
  a new key is appended, matching CPython semantics.
- Python `set`s of strings are duplicate-free lists built by
  insert-if-absent; only membership is observed.
- Fallible Python code (uncaught exceptions) is embedded in `Except`;
  caught exceptions (`try`/`except`) become `Option` results.
- External collaborators absent from the repository snapshot
  (`utils.count_tokens`, `prompt_template.format_cluster_prompt`, the
  network transport inside `llm_services.call_llm`) are parameters of the
  embedding; the `Node` record, whose defining module
  (`dependency_analyzer/models/core.py`) is not in the snapshot, is
  modelled from the data model of the spec (§3) and the constructor
  call in `ast_parser.py`.
-/

namespace CodeWiki

/-- Association-list model of a Python `dict` with string keys:
lookup returns the first binding. -/
def dictGet {α : Type} : List (String × α) → String → Option α
  | [], _ => none
  | (k', v) :: rest, k => if k' = k then some v else dictGet rest k

/-- Python `d[k] = v`: replace the binding in place if the key exists
(CPython keeps the original position), otherwise append. -/
def dictSet {α : Type} : List (String × α) → String → α → List (String × α)
  | [], k, v => [(k, v)]
  | (k', v') :: rest, k, v =>
    if k' = k then (k', v) :: rest else (k', v') :: dictSet rest k v

/-- Python `del d[k]` for a dict that already holds the key
(all bindings for the key are removed; dicts have unique keys). -/
def dictDel {α : Type} : List (String × α) → String → List (String × α)
  | [], _ => []
  | (k', v') :: rest, k =>
    if k' = k then dictDel rest k else (k', v') :: dictDel rest k

/-- Python `s.add(x)` on a set modelled as a duplicate-free list. -/
def setAdd (s : List String) (x : String) : List String :=
  if x ∈ s then s else s ++ [x]

/-- Python's substring test `pat in s`. -/
def strContains (s pat : String) : Bool :=
  decide (List.IsInfix pat.toList s.toList)

/-- Code-point comparison of char lists: the ordering Python uses to
compare `str` values. -/
def charListLe : List Char → List Char → Bool
  | [], _ => true
  | _ :: _, [] => false
  | a :: as, b :: bs =>
    if a.toNat < b.toNat then true
    else if b.toNat < a.toNat then false
    else charListLe as bs

def strLe (a b : String) : Bool := charListLe a.toList b.toList

/-- Insertion step of sorting a dict's items by key
(`dict(sorted(d.items()))`; keys are unique, so comparing keys decides
the Python tuple comparison). -/
def insertSortedByKey {α : Type} (x : String × α) :
    List (String × α) → List (String × α)
  | [] => [x]
  | y :: rest => if strLe x.1 y.1 then x :: y :: rest else y :: insertSortedByKey x rest

def sortByKey {α : Type} (l : List (String × α)) : List (String × α) :=
  l.foldr insertSortedByKey []

/-- Consume `pat` from the front of `xs`, or return `none`. -/
def dropPrefixQ : List Char → List Char → Option (List Char)
  | [], xs => some xs
  | _ :: _, [] => none
  | p :: ps, x :: xs => if p = x then dropPrefixQ ps xs else none

/-- Leftmost, non-overlapping splitting on a non-empty pattern — Python
`s.split(pat)`. Fuel is the remaining input length; every step consumes
at least one character, so the fuel never runs out when it starts at
`length + 1`. -/
def splitOnGo (pat : List Char) : Nat → List Char → List Char → List (List Char)
  | 0, acc, _ => [acc.reverse]
  | _ + 1, acc, [] => [acc.reverse]
  | fuel + 1, acc, x :: xs =>
    match dropPrefixQ pat (x :: xs) with
    | some rest => acc.reverse :: splitOnGo pat fuel [] rest
    | none => splitOnGo pat fuel (x :: acc) xs

/-- Python `s.split(pat)` for a non-empty pattern. -/
def pySplit (s pat : String) : List String :=
  (splitOnGo pat.toList (s.length + 1) [] s.toList).map String.mk

def isPySpace (c : Char) : Bool := c = ' ' ∨ c = '\t' ∨ c = '\n' ∨ c = '\r'

/-- Python `s.strip()` (whitespace at both ends). -/
def pyStrip (s : String) : String :=
  String.mk (((s.toList.dropWhile isPySpace).reverse.dropWhile isPySpace).reverse)

def lowerChar (c : Char) : Char :=
  if 65 ≤ c.toNat ∧ c.toNat ≤ 90 then Char.ofNat (c.toNat + 32) else c

/-- Python `s.lower()` (ASCII range, which covers component ids). -/
def pyLower (s : String) : String := String.mk (s.toList.map lowerChar)

/-- A `Node` component record. Modelled from the data model of the spec (§3)
and the keyword arguments of the `Node(...)` constructor call in
`DependencyParser._build_components_from_analysis`; the defining module
`dependency_analyzer/models/core.py` is not part of the source snapshot.
`depends_on` defaults to the empty set, as required by the spec
("Mutated only during graph construction"). -/
structure Node where
  id : String
  name : String
  component_type : String
  file_path : String
  relative_path : String
  source_code : String
  start_line : Int
  end_line : Int
  has_docstring : Bool
  docstring : String
  parameters : List String
  node_type : String
  base_classes : Option (List String)
  class_name : Option String
  display_name : String
  component_id : String
  depends_on : List String := []
deriving Repr, DecidableEq

/-- A raw function/component record as consumed by
`_build_components_from_analysis`. A field read with
`func_dict.get(key, default)` whose absence matters is an `Option`
(`none` models a missing key, and for `docstring` also Python `None`);
fields whose default is only ever the empty value are stored plain. -/
structure RawFunc where
  id : String := ""
  name : String := ""
  component_type : Option String := none
  node_type : Option String := none
  file_path : String := ""
  relative_path : String := ""
  source_code : Option String := none
  code_snippet : String := ""
  start_line : Int := 0
  end_line : Int := 0
  has_docstring : Option Bool := none
  docstring : Option String := none
  parameters : List String := []
  base_classes : Option (List String) := none
  class_name : Option String := none
  display_name : String := ""
deriving Repr, DecidableEq

/-- A raw relationship record: `rel_dict.get("caller", "")`,
`rel_dict.get("callee", "")`, `rel_dict.get("is_resolved", False)`.
The code reads `is_resolved` but never uses it. -/
structure RawRel where
  caller : String := ""
  callee : String := ""
  is_resolved : Bool := false
deriving Repr, DecidableEq

/-- Accumulated state of `_build_components_from_analysis`:
`self.components`, the local `component_id_mapping`, `self.modules`. -/
structure BuildState where
  components : List (String × Node)
  component_id_mapping : List (String × String)
  modules : List String
deriving Repr, DecidableEq

/-- One iteration of the `for func_dict in functions` loop of
`_build_components_from_analysis` (ast_parser.py lines 59–94): skip a
record with an empty id, otherwise build the `Node`, register it in
`self.components`, extend the id-resolution index with the canonical id
and the legacy `"<file_path>:<name>"` alias, and record the module path
when the id is dotted. -/
def nodeOfRawFunc (f : RawFunc) : Node :=
  { id := f.id
    name := f.name
    component_type := f.component_type.getD (f.node_type.getD "function")
    file_path := f.file_path
    relative_path := f.relative_path
    source_code := f.source_code.getD f.code_snippet
    start_line := f.start_line
    end_line := f.end_line
    has_docstring := f.has_docstring.getD (decide (f.docstring.getD "" ≠ ""))
    docstring := f.docstring.getD ""
    parameters := f.parameters
    node_type := f.node_type.getD "function"
    base_classes := f.base_classes
    class_name := f.class_name
    display_name := f.display_name
    component_id := f.id
    depends_on := [] }

/-- The legacy alias id, file path and name joined by a colon. -/
def legacyId (f : RawFunc) : String := f.file_path ++ ":" ++ f.name

/-- The id-resolution index updates of one function-loop iteration:
`component_id_mapping[component_id] = component_id`, then the legacy
alias when it is non-empty and differs. -/
def mappingAfter (mapping : List (String × String)) (f : RawFunc) :
    List (String × String) :=
  if legacyId f ≠ "" ∧ legacyId f ≠ f.id then
    dictSet (dictSet mapping f.id f.id) (legacyId f) f.id
  else dictSet mapping f.id f.id

/-- Module registration, Python `self.modules.add(module_path)`, for a
dotted id with a non-empty module path. -/
def modulesAfter (modules : List String) (f : RawFunc) : List String :=
  if strContains f.id "." ∧ String.intercalate "." ((pySplit f.id ".").dropLast) ≠ "" then
    setAdd modules (String.intercalate "." ((pySplit f.id ".").dropLast))
  else modules

def addFunc (st : BuildState) (f : RawFunc) : BuildState :=
  if f.id = "" then st
  else
    ⟨dictSet st.components f.id (nodeOfRawFunc f),
      mappingAfter st.component_id_mapping f,
      modulesAfter st.modules f⟩

/-- One iteration of the `for rel_dict in relationships` loop
(ast_parser.py lines 97–114): resolve the caller through the index; the
callee through the index, falling back to a first-match linear scan over
`self.components` by bare `name`; if both resolve and the caller id is a
component, insert the callee id into the `depends_on` set of the caller.
(The local `processed_relationships` counter is never returned and is
not modelled.) -/
def resolveCallee (components : List (String × Node)) (mapping : List (String × String))
    (callee_id : String) : Option String :=
  match dictGet mapping callee_id with
  | some c => some c
  | none =>
    (components.find? (fun p => decide (p.2.name = callee_id))).map (fun p => p.1)

def applyRel (components : List (String × Node)) (mapping : List (String × String))
    (rel : RawRel) : List (String × Node) :=
  match dictGet mapping rel.caller with
  | none => components
  | some caller_cid =>
    match dictGet components caller_cid with
    | none => components
    | some caller_node =>
      match resolveCallee components mapping rel.callee with
      | none => components
      | some callee_cid =>
        dictSet components caller_cid
          { caller_node with depends_on := setAdd caller_node.depends_on callee_cid }

/-- The whole of `_build_components_from_analysis`, as observed by the
caller of `parse_repository`: first the function loop builds the
component map and the id index, then the relationship loop inserts
resolved edges. Note `parse_repository` returns only `self.components`. -/
def build_components (functions : List RawFunc) (relationships : List RawRel) :
    List (String × Node) :=
  let st := functions.foldl addFunc ⟨[], [], []⟩
  relationships.foldl (fun comps rel => applyRel comps st.component_id_mapping rel)
    st.components

/-- Modelled from the spec: the "count of skipped records" named by the
failure clause of §4.1 — the number of raw function records whose id is missing
or empty. No function in the source computes or returns this value. -/
def skipped_record_count (functions : List RawFunc) : Nat :=
  (functions.filter (fun f => decide (f.id = ""))).length

/-- The error-keyword filter of
`DependencyGraphBuilder.build_dependency_graph` (line 68). -/
def has_err_keyword (s : String) : Bool :=
  ["error", "exception", "failed", "invalid"].any (fun kw => strContains (pyLower s) kw)

/-- The leaf-node filtering loop of
`DependencyGraphBuilder.build_dependency_graph`
(dependency_graphs_builder.py lines 65–79): drop blank ids and ids
carrying an error keyword, keep an id only when it is a component of
type `class`, `interface` or `struct`. (The `isinstance(leaf_node, str)`
guard is vacuous here because the embedding types leaf ids as strings.) -/
def keep_leaf_step (components : List (String × Node)) (acc : List String)
    (leaf_node : String) : List String :=
  if pyStrip leaf_node = "" ∨ has_err_keyword leaf_node then acc
  else
    match dictGet components leaf_node with
    | some node =>
      if node.component_type ∈ (["class", "interface", "struct"] : List String) then
        acc ++ [leaf_node]
      else acc
    | none => acc

def keep_leaf_nodes (leaf_nodes : List String) (components : List (String × Node)) :
    List String :=
  leaf_nodes.foldl (keep_leaf_step components) []

/-- Python values produced by evaluating the text an oracle returns
between the `<GROUPED_COMPONENTS>` markers. The modelled subset covers
string-keyed mappings, lists, strings, non-negative integers and `None`
(the shapes the clustering protocol exchanges). -/
inductive PyVal where
  | noneV : PyVal
  | str : String → PyVal
  | int : Nat → PyVal
  | list : List PyVal → PyVal
  | dict : List (String × PyVal) → PyVal
deriving Repr

/-- Python expressions in the modelled subset of the input language of `eval`:
literals (strings, integers, lists, dicts) plus function-call
expressions. A call node is what makes `eval` *execute* text rather than
parse it: evaluating it runs code. -/
inductive PyExpr where
  | str : String → PyExpr
  | int : Nat → PyExpr
  | listE : List PyExpr → PyExpr
  | dictE : List (PyExpr × PyExpr) → PyExpr
  | call : String → List PyExpr → PyExpr
deriving Repr

/-- Skip blanks, tabs, newlines. -/
def skipWs : List Char → List Char
  | c :: rest =>
    if c = ' ' ∨ c = '\t' ∨ c = '\n' ∨ c = '\r' then skipWs rest else c :: rest
  | [] => []

def isIdentChar (c : Char) : Bool := c.isAlphanum || c = '_'

/-- Greedy identifier scan. -/
def takeIdent (cs : List Char) : String × List Char :=
  (String.mk (cs.takeWhile isIdentChar), cs.dropWhile isIdentChar)

/-- A double-quoted string literal body (no escape sequences in the
modelled subset); `none` when unterminated. -/
def takeStringLit (cs : List Char) : Option (String × List Char) :=
  match cs.dropWhile (fun c => c ≠ '"') with
  | _ :: rest => some (String.mk (cs.takeWhile (fun c => c ≠ '"')), rest)
  | [] => none

mutual

/-- Recursive-descent parse of one Python expression of the modelled
subset; fuel bounds the nesting depth. `none` models a `SyntaxError`
(which `eval` raises for text outside the subset, e.g. a bare name
reaches the same uncaught-exception outcome via `NameError`). -/
def parseExpr : Nat → List Char → Option (PyExpr × List Char)
  | 0, _ => none
  | fuel + 1, cs =>
    match skipWs cs with
    | [] => none
    | c :: rest =>
      if c = '"' then
        (takeStringLit rest).map (fun p => (PyExpr.str p.1, p.2))
      else if c.isDigit then
        let ds := (c :: rest).takeWhile Char.isDigit
        some (PyExpr.int (ds.foldl (fun a d => a * 10 + (d.toNat - 48)) 0),
          (c :: rest).dropWhile Char.isDigit)
      else if c = '[' then
        (parseElems fuel rest ']').map (fun p => (PyExpr.listE p.1, p.2))
      else if c = '\x7b' then
        (parseEntries fuel rest).map (fun p => (PyExpr.dictE p.1, p.2))
      else if isIdentChar c then
        let (name, r) := takeIdent (c :: rest)
        match skipWs r with
        | '(' :: r2 => (parseElems fuel r2 ')').map (fun p => (PyExpr.call name p.1, p.2))
        | _ => none
      else none

/-- Comma-separated expressions up to a closing bracket. -/
def parseElems : Nat → List Char → Char → Option (List PyExpr × List Char)
  | 0, _, _ => none
  | fuel + 1, cs, close =>
    match skipWs cs with
    | [] => none
    | c :: rest =>
      if c = close then some ([], rest)
      else
        match parseExpr fuel (c :: rest) with
        | none => none
        | some (e, r) =>
          match skipWs r with
          | [] => none
          | c2 :: r2 =>
            if c2 = ',' then
              (parseElems fuel r2 close).map (fun p => (e :: p.1, p.2))
            else if c2 = close then some ([e], r2)
            else none

/-- Comma-separated `key : value` pairs up to the closing brace. -/
def parseEntries : Nat → List Char → Option (List (PyExpr × PyExpr) × List Char)
  | 0, _ => none
  | fuel + 1, cs =>
    match skipWs cs with
    | [] => none
    | c :: rest =>
      if c = '\x7d' then some ([], rest)
      else
        match parseExpr fuel (c :: rest) with
        | none => none
        | some (k, r) =>
          match skipWs r with
          | ':' :: r2 =>
            match parseExpr fuel r2 with
            | none => none
            | some (v, r3) =>
              match skipWs r3 with
              | [] => none
              | c2 :: r4 =>
                if c2 = ',' then
                  (parseEntries fuel r4).map (fun p => ((k, v) :: p.1, p.2))
                else if c2 = '\x7d' then some ([(k, v)], r4)
                else none
          | _ => none

end

/-- Parse a whole string as one expression of the modelled subset. -/
def parsePyExpr (s : String) : Option PyExpr :=
  match parseExpr (s.length + 1) s.toList with
  | some (e, r) => if (skipWs r).isEmpty then some e else none
  | none => none

mutual

/-- Evaluation in the model of Python `eval`: literals evaluate to
themselves; a call expression *executes* — its execution is recorded in
the effect log (`"pyexec:" ++ name`) after its arguments are evaluated
left to right, and its result is opaque (`noneV`). A `dict` key outside
the string subset is an evaluation error. The log is returned even when
evaluation fails, mirroring side effects performed before an exception. -/
def evalExpr : PyExpr → List String → List String × Except String PyVal
  | PyExpr.str s, log => (log, .ok (PyVal.str s))
  | PyExpr.int n, log => (log, .ok (PyVal.int n))
  | PyExpr.listE es, log =>
    match evalList es log with
    | (log', .ok vs) => (log', .ok (PyVal.list vs))
    | (log', .error e) => (log', .error e)
  | PyExpr.dictE kvs, log =>
    match evalEntries kvs log [] with
    | (log', .ok d) => (log', .ok (PyVal.dict d))
    | (log', .error e) => (log', .error e)
  | PyExpr.call name args, log =>
    match evalList args log with
    | (log', .ok _) => (log' ++ ["pyexec:" ++ name], .ok PyVal.noneV)
    | (log', .error e) => (log', .error e)

def evalList : List PyExpr → List String → List String × Except String (List PyVal)
  | [], log => (log, .ok [])
  | e :: es, log =>
    match evalExpr e log with
    | (log', .ok v) =>
      match evalList es log' with
      | (log'', .ok vs) => (log'', .ok (v :: vs))
      | (log'', .error err) => (log'', .error err)
    | (log', .error err) => (log', .error err)

/-- Builds the dict left to right into the accumulator, as a Python dict
literal does (first occurrence fixes the position, a duplicate key keeps
the last value). -/
def evalEntries : List (PyExpr × PyExpr) → List String → List (String × PyVal) →
    List String × Except String (List (String × PyVal))
  | [], log, acc => (log, .ok acc)
  | (k, v) :: kvs, log, acc =>
    match evalExpr k log with
    | (log', .ok (PyVal.str ks)) =>
      match evalExpr v log' with
      | (log'', .ok vv) => evalEntries kvs log'' (dictSet acc ks vv)
      | (log'', .error err) => (log'', .error err)
    | (log', .ok _) => (log', .error "TypeError: unmodelled dict key")
    | (log', .error err) => (log', .error err)

end

/-- The model of Python's builtin `eval` applied to the text extracted
from the oracle response (cluster_modules.py line 70): parse, then
evaluate — executing any call expression the text contains. Returns the
result (`Except` for the exceptions `eval` raises) together with the log
of executions performed. -/
def pyEval (s : String) : List String × Except String PyVal :=
  match parsePyExpr s with
  | none => ([], .error "SyntaxError")
  | some e => evalExpr e []

def marker_open : String := "<GROUPED_COMPONENTS>"

def marker_close : String := "</GROUPED_COMPONENTS>"

/-- Extraction of the delimited region, Python
`response.split("<GROUPED_COMPONENTS>")[1].split("</GROUPED_COMPONENTS>")[0]`
(cluster_modules.py line 69); the index `[1]` exists whenever the
opening marker occurs in the response. -/
def extract_grouped (response : String) : String :=
  ((pySplit ((pySplit response marker_open).getD 1 "") marker_close)).headD ""

/-- The response-parsing block of `cluster_modules`
(cluster_modules.py lines 62–82): if either marker is absent, or `eval`
of the extracted text raises, or the evaluated payload is not a dict,
the block yields `none` (the function then returns `{}`); the
`try`/`except` around the block converts every exception into that same
outcome, so the block itself is total. The second component is the log
of code executions `eval` performed on the oracle text. -/
def parse_grouped_response (response : String) :
    Option (List (String × PyVal)) × List String :=
  if ¬ (strContains response marker_open = true ∧ strContains response marker_close = true) then
    (none, [])
  else
    match pyEval (extract_grouped response) with
    | (effects, .error _) => (none, effects)
    | (effects, .ok (PyVal.dict d)) => (some d, effects)
    | (effects, .ok _) => (none, effects)

/-- Modelled from the spec (§9): the explicit tagged result type
`Ok(mapping) | ParseError | MissingMarkers` of the strict parser the
spec requires in place of permissive evaluation. -/
inductive StrictParseResult where
  | ok : List (String × PyVal) → StrictParseResult
  | parseError : StrictParseResult
  | missingMarkers : StrictParseResult
deriving Repr

mutual

/-- Literal-only reading of an expression: `none` as soon as a call
node appears, so no code is ever executed. -/
def litVal : PyExpr → Option PyVal
  | PyExpr.str s => some (PyVal.str s)
  | PyExpr.int n => some (PyVal.int n)
  | PyExpr.listE es => (litValList es).map PyVal.list
  | PyExpr.dictE kvs => (litValEntries kvs []).map PyVal.dict
  | PyExpr.call _ _ => none

def litValList : List PyExpr → Option (List PyVal)
  | [] => some []
  | e :: es => do
    let v ← litVal e
    let vs ← litValList es
    pure (v :: vs)

def litValEntries : List (PyExpr × PyExpr) → List (String × PyVal) →
    Option (List (String × PyVal))
  | [], acc => some acc
  | (k, v) :: kvs, acc => do
    let kv ← litVal k
    match kv with
    | PyVal.str ks => do
      let vv ← litVal v
      litValEntries kvs (dictSet acc ks vv)
    | _ => none

end

/-- Modelled from the spec (§9): require a strict parser with an
explicit tagged-result type instead of permissive evaluation of
arbitrary text; never execute oracle output as code. The strict
parser accepts only mapping literals between the markers and performs
no evaluation, hence no execution. -/
def strict_parse_grouped (response : String) : StrictParseResult :=
  if ¬ (strContains response marker_open = true ∧ strContains response marker_close = true) then
    StrictParseResult.missingMarkers
  else
    match parsePyExpr (extract_grouped response) with
    | none => StrictParseResult.parseError
    | some e =>
      match litVal e with
      | some (PyVal.dict d) => StrictParseResult.ok d
      | _ => StrictParseResult.parseError

/-- Grouping via `defaultdict(list)`: grouping of valid leaf ids by
`components[leaf_node].relative_path` (cluster_modules.py lines 26–28):
a new file key is appended at first use, ids are appended in order. -/
def groupByFile (components : List (String × Node)) (valid : List String) :
    List (String × List String) :=
  valid.foldl (fun acc ln =>
    match dictGet components ln with
    | some node =>
      match dictGet acc node.relative_path with
      | some lns => dictSet acc node.relative_path (lns ++ [ln])
      | none => acc ++ [(node.relative_path, [ln])]
    | none => acc) []

/-- The listing builder `format_potential_core_components`
(cluster_modules.py lines 11–40):
filter the leaf ids to those present in the component map, group them by
`relative_path`, sort the groups by file (Python `dict(sorted(...))`),
and render the id-only listing and the id-plus-source listing. -/
def format_potential_core_components (leaf_nodes : List String)
    (components : List (String × Node)) : String × String :=
  let valid_leaf_nodes := leaf_nodes.filter (fun ln => (dictGet components ln).isSome)
  let leaf_nodes_by_file := groupByFile components valid_leaf_nodes
  let sorted_by_file := sortByKey leaf_nodes_by_file
  sorted_by_file.foldl (fun (acc : String × String) fileGroup =>
    let header := "# " ++ fileGroup.1 ++ "\n"
    fileGroup.2.foldl (fun (acc2 : String × String) ln =>
      let src :=
        match dictGet components ln with
        | some node => node.source_code
        | none => ""
      (acc2.1 ++ "\t" ++ ln ++ "\n", acc2.2 ++ "\t" ++ ln ++ "\n" ++ src ++ "\n"))
      (acc.1 ++ header, acc.2 ++ header))
    ("", "")

/-- The per-group half of the merge step (cluster_modules.py lines
94–96): for each proposed group, `del module_info["path"]` (a `KeyError`
when the oracle supplied no `path` field, a `TypeError` when the group is
not a dict — both uncaught) and insert the stripped group into the
target `children` dict. Returns the updated target together with the
stripped group list (the mutated `module_tree` the caller keeps using). -/
def insertStripped : List (String × PyVal) → List (String × PyVal) →
    Except String (List (String × PyVal) × List (String × PyVal))
  | target, [] => .ok (target, [])
  | target, (module_name, module_info) :: rest =>
    match module_info with
    | PyVal.dict d =>
      if (dictGet d "path").isSome then
        let d' := dictDel d "path"
        match insertStripped (dictSet target module_name (PyVal.dict d')) rest with
        | .ok (target', stripped) => .ok (target', (module_name, PyVal.dict d') :: stripped)
        | .error e => .error e
      else .error "KeyError: path"
    | _ => .error "TypeError: del on non-dict"

/-- The merge step of `cluster_modules` for a non-empty existing tree
(cluster_modules.py lines 90–96): walk
`value = value[key]["children"]` along `current_module_path` (a missing
key or a non-dict value raises, uncaught) and insert the path-stripped
groups at the reached `children` dict. Returns the updated root tree and
the stripped groups. -/
def mergeAt : List (String × PyVal) → List String → List (String × PyVal) →
    Except String (List (String × PyVal) × List (String × PyVal))
  | tree, [], groups => insertStripped tree groups
  | tree, key :: rest, groups =>
    match dictGet tree key with
    | some (PyVal.dict entry) =>
      match dictGet entry "children" with
      | some (PyVal.dict children) =>
        match mergeAt children rest groups with
        | .ok (children', stripped) =>
          .ok (dictSet tree key
            (PyVal.dict (dictSet entry "children" (PyVal.dict children'))), stripped)
        | .error e => .error e
      | some _ => .error "TypeError: children is not a dict"
      | none => .error "KeyError: children"
    | some _ => .error "TypeError: entry is not a dict"
    | none => .error ("KeyError: " ++ key)

/-- Read-only counterpart of the merge walk
`value = value[key]["children"]` (cluster_modules.py lines 91–93): the
`children` dict reached from the tree by following the path, used to
state where the merge wrote. -/
def walkChildren : List (String × PyVal) → List String →
    Except String (List (String × PyVal))
  | tree, [] => .ok tree
  | tree, key :: rest =>
    match dictGet tree key with
    | some (PyVal.dict entry) =>
      match dictGet entry "children" with
      | some (PyVal.dict children) => walkChildren children rest
      | some _ => .error "TypeError: children is not a dict"
      | none => .error "KeyError: children"
    | some _ => .error "TypeError: entry is not a dict"
    | none => .error ("KeyError: " ++ key)

/-- Value-semantics counterpart of the in-place mutation
`module_info["children"] = ...` seen through the aliasing that the merge
step establishes between the group dict and the tree: rewrite the tree
entry at the given path (the last segment is the entry key, earlier
segments are `children` hops). Total — a no-op on a path the tree does
not contain, which reachable states never present, because the entry was
inserted at that exact path by the preceding merge. -/
def treeSetEntryAt : List (String × PyVal) → List String → PyVal →
    List (String × PyVal)
  | tree, [], _ => tree
  | tree, [key], v => dictSet tree key v
  | tree, key :: rest, v =>
    match dictGet tree key with
    | some (PyVal.dict entry) =>
      match dictGet entry "children" with
      | some (PyVal.dict children) =>
        dictSet tree key
          (PyVal.dict (dictSet entry "children"
            (PyVal.dict (treeSetEntryAt children rest v))))
      | _ => tree
    | _ => tree

/-- The token budget `config.MAX_TOKEN_PER_MODULE`. -/
def MAX_TOKEN_PER_MODULE : Nat := 36369

/-- The external collaborators of `cluster_modules`, modelled from the
spec because their modules are outside the source snapshot:
`utils.count_tokens` (a token counter over strings, §4.3 step 3),
`prompt_template.format_cluster_prompt` (builds the oracle prompt from
the lightweight listing, the accumulated tree and the current module
name, §6), and the network transport inside `llm_services.call_llm`
(`Complete(prompt) -> string`, which may raise on transport failure,
§7 OracleTransportError). -/
structure ClusterEnv where
  count_tokens : String → Nat
  format_cluster_prompt : String → List (String × PyVal) → Option String → String
  call_llm : String → Except String String

/-- The mutable state `cluster_modules` threads through its recursion:
the root module tree (the object `current_module_tree` refers to), the
shared `current_module_path` list, and a log recording each oracle call
(`"llm:" ++ prompt`) and each code execution `eval` performed
(`"pyexec:" ++ name`). -/
structure CState where
  tree : List (String × PyVal)
  path : List String
  log : List String

/-- Iteration `for node in sub_leaf_nodes` combined with the membership test
`node in components` on a string-keyed dict: list elements that are
strings are candidate keys; ints and `None` are hashable but can never
be keys of the string-keyed map, so the membership test just fails for
them; an unhashable element (list, dict) raises an uncaught `TypeError`.
Iterating a string yields its one-character substrings, iterating a dict
yields its keys, iterating an int or `None` raises. -/
def pyElemKeys : List PyVal → Except String (List String)
  | [] => .ok []
  | PyVal.str s :: vs => (pyElemKeys vs).map (fun r => s :: r)
  | PyVal.int _ :: vs => pyElemKeys vs
  | PyVal.noneV :: vs => pyElemKeys vs
  | PyVal.list _ :: _ => .error "TypeError: unhashable type"
  | PyVal.dict _ :: _ => .error "TypeError: unhashable type"

def pyIterStrings : PyVal → Except String (List String)
  | PyVal.list vs => pyElemKeys vs
  | PyVal.str s => pyElemKeys (s.toList.map (fun c => PyVal.str (String.mk [c])))
  | PyVal.dict d => pyElemKeys (d.map (fun p => PyVal.str p.1))
  | _ => .error "TypeError: not iterable"

mutual

/-- The engine entry `cluster_modules` (cluster_modules.py lines
43–116), in explicit
state-passing form. `Except.error` carries an uncaught Python exception
together with the state at the moment it escapes; fuel bounds the
recursion depth (the source has no such bound — its termination relies
on the oracle shrinking the candidate sets). Steps, in source order:
the token-budget base case (lines 55–56), the oracle call (line 59,
exceptions uncaught), the guarded parse of the response (lines 62–82),
the degenerate-grouping guard (lines 85–86), the root-or-merge step
(lines 88–96), and the per-group recursion loop (lines 98–114, embedded
as `cluster_loop`). -/
def cluster_modules : Nat → ClusterEnv → List String → List (String × Node) →
    Option String → CState →
    Except (String × CState) (List (String × PyVal) × CState)
  | 0, _, _, _, _, st => .error ("fuel exhausted", st)
  | fuel + 1, env, leaf_nodes, components, current_module_name, st =>
    let fmt := format_potential_core_components leaf_nodes components
    if env.count_tokens fmt.2 ≤ MAX_TOKEN_PER_MODULE then .ok ([], st)
    else
      let prompt := env.format_cluster_prompt fmt.1 st.tree current_module_name
      match env.call_llm prompt with
      | .error e => .error (e, { st with log := st.log ++ ["llm:" ++ prompt] })
      | .ok response =>
        let st1 : CState := { st with log := st.log ++ ["llm:" ++ prompt] }
        match parse_grouped_response response with
        | (none, effects) => .ok ([], { st1 with log := st1.log ++ effects })
        | (some module_tree, effects) =>
          let st2 : CState := { st1 with log := st1.log ++ effects }
          if module_tree.length ≤ 1 then .ok ([], st2)
          else
            if st2.tree.isEmpty then
              cluster_loop fuel env components { st2 with tree := module_tree }
                module_tree []
            else
              match mergeAt st2.tree st2.path module_tree with
              | .error e => .error (e, st2)
              | .ok (tree', stripped) =>
                cluster_loop fuel env components { st2 with tree := tree' } stripped []

/-- The `for module_name, module_info in module_tree.items()` loop of
`cluster_modules` (lines 98–114): read and filter the proposed
`components`, push the group name onto the shared path, set the group
field `children` to `{}` (visible through the tree alias), recurse, assign the
recursive result as `children`, pop the path, and continue. An exception
escaping the recursive call propagates immediately — there is no
`try`/`finally`, so the pop on line 114 is skipped. -/
def cluster_loop : Nat → ClusterEnv → List (String × Node) → CState →
    List (String × PyVal) → List (String × PyVal) →
    Except (String × CState) (List (String × PyVal) × CState)
  | _, _, _, st, [], acc => .ok (acc, st)
  | 0, _, _, st, _ :: _, _ => .error ("fuel exhausted", st)
  | fuel + 1, env, components, st, (module_name, module_info) :: rest, acc =>
    match module_info with
    | PyVal.dict info =>
      let sub_leaf_nodes := (dictGet info "components").getD (PyVal.list [])
      match pyIterStrings sub_leaf_nodes with
      | .error e => .error (e, st)
      | .ok nodes =>
        let valid_sub_leaf_nodes := nodes.filter (fun n => (dictGet components n).isSome)
        let st1 : CState := { st with path := st.path ++ [module_name] }
        let info1 := dictSet info "children" (PyVal.dict [])
        let st2 : CState :=
          { st1 with tree := (treeSetEntryAt st1.tree st1.path (PyVal.dict info1)) }
        match cluster_modules fuel env valid_sub_leaf_nodes components
            (some module_name) st2 with
        | .error es => .error es
        | .ok (children, st3) =>
          let info2 := dictSet info "children" (PyVal.dict children)
          let tree4 := treeSetEntryAt st3.tree st3.path (PyVal.dict info2)
          let st4 : CState := { st3 with tree := tree4, path := st3.path.dropLast }
          cluster_loop fuel env components st4 rest (acc ++ [(module_name, PyVal.dict info2)])
    | _ => .error ("AttributeError: get on non-dict", st)

end

theorem dictGet_dictSet_self {α : Type} (d : List (String × α)) (k : String) (v : α) :
    dictGet (dictSet d k v) k = some v := by
  induction d with
  | nil => simp [dictGet, dictSet]
  | cons p rest ih =>
    obtain ⟨k', v'⟩ := p
    by_cases h : k' = k
    · subst h
      simp [dictGet, dictSet]
    · simp [dictGet, dictSet, h, ih]

theorem dictGet_dictSet_ne {α : Type} (d : List (String × α)) (k k' : String) (v : α)
    (h : k' ≠ k) : dictGet (dictSet d k v) k' = dictGet d k' := by
  induction d with
  | nil => simp [dictGet, dictSet, Ne.symm h]
  | cons p rest ih =>
    obtain ⟨k'', v''⟩ := p
    by_cases hk : k'' = k
    · subst hk
      simp [dictGet, dictSet, Ne.symm h]
    · simp [dictGet, dictSet, hk, ih]

theorem isSome_dictGet_dictSet {α : Type} (d : List (String × α)) (k k' : String) (v : α)
    (h : (dictGet d k').isSome) : (dictGet (dictSet d k v) k').isSome := by
  by_cases hk : k' = k
  · subst hk
    rw [dictGet_dictSet_self]
    rfl
  · rwa [dictGet_dictSet_ne _ _ _ _ hk]

theorem dictGet_dictSet_cases {α : Type} (d : List (String × α)) (k k' : String) (v x : α)
    (h : dictGet (dictSet d k v) k' = some x) :
    (k' = k ∧ x = v) ∨ dictGet d k' = some x := by
  by_cases hk : k' = k
  · subst hk
    rw [dictGet_dictSet_self] at h
    exact Or.inl ⟨rfl, (Option.some_inj.mp h).symm⟩
  · right
    rwa [dictGet_dictSet_ne _ _ _ _ hk] at h

theorem isSome_dictGet_of_mem {α : Type} (d : List (String × α)) (k : String) (v : α)
    (h : (k, v) ∈ d) : (dictGet d k).isSome := by
  induction d with
  | nil => cases h
  | cons p rest ih =>
    obtain ⟨k', v'⟩ := p
    by_cases hk : k' = k
    · simp [dictGet, hk]
    · rcases List.mem_cons.mp h with h1 | h1
      · rw [Prod.mk.injEq] at h1
        exact absurd h1.1.symm hk
      · simpa [dictGet, hk] using ih h1

theorem dictGet_dictDel_self {α : Type} (d : List (String × α)) (k : String) :
    dictGet (dictDel d k) k = none := by
  induction d with
  | nil => rfl
  | cons p rest ih =>
    obtain ⟨k', v'⟩ := p
    by_cases hk : k' = k
    · simp [dictDel, hk, ih]
    · simp [dictDel, dictGet, hk, ih]

/-- C1 counterexample input: an oracle response whose delimited region is
a Python call expression rather than a literal. -/
def c1_response : String :=
  "<GROUPED_COMPONENTS> print(\"pwned\") </GROUPED_COMPONENTS>"

/-- C1: the claim says the clustering engine parses the oracle response
with a strict parser and never executes oracle output as code. The
code instead passes the delimited text to Python `eval`
(cluster_modules.py line 70): on a response whose payload is the call
expression `print("pwned")` the engine executes the call (the execution
log of the parse stage is non-empty), whereas the strict literal parser
the spec requires (§9) rejects the same response as a `ParseError` and
executes nothing. -/
theorem C1_eval_executes_oracle_output :
    (parse_grouped_response c1_response).2 = ["pyexec:print"] ∧
      strict_parse_grouped c1_response = StrictParseResult.parseError := by
  constructor
  · rfl
  · rfl

/-- C2 failing input: one component whose single relationship resolves
caller and callee to the same id (a recursive call). -/
def c2_func : RawFunc := { id := "m.f", name := "f", file_path := "m.py" }

def c2_rel : RawRel := { caller := "m.f", callee := "m.f" }

/-- C2: the claim (spec §3) says a relationship whose caller and callee
resolve to the same component id is filtered out before insertion, so no
node has a `depends_on` set containing its own id. `_build_components_from_analysis`
has no such filter: on the failing input the built graph gives `m.f` a
`depends_on` set containing `m.f` itself. -/
theorem C2_self_edge_inserted :
    ∃ n, dictGet (build_components [c2_func] [c2_rel]) "m.f" = some n ∧
      "m.f" ∈ n.depends_on := by
  refine ⟨_, rfl, ?_⟩
  decide

def c3_fa : RawFunc := { id := "a.A", name := "A", file_path := "a.py" }

def c3_fbad : RawFunc := { name := "ghost" }

def c3_fbad2 : RawFunc := { name := "ghost2" }

/-- C3 counterexample: two raw inputs that differ only in how many
records were skipped for a missing id produce identical results, so the
caller of graph construction cannot recover any count of skipped records
— refuting the claim that a count of the skipped records is reported to
the caller (`parse_repository` returns only the component map). -/
theorem C3_no_skip_count_reported :
    build_components [c3_fa, c3_fbad, c3_fbad2] [] = build_components [c3_fa] [] ∧
      skipped_record_count [c3_fa, c3_fbad, c3_fbad2] ≠ skipped_record_count [c3_fa] := by
  constructor
  · rfl
  · decide

theorem foldl_addFunc_filter (functions : List RawFunc) (init : BuildState) :
    functions.foldl addFunc init =
      (functions.filter (fun f => decide (f.id ≠ ""))).foldl addFunc init := by
  induction functions generalizing init with
  | nil => rfl
  | cons f rest ih =>
    by_cases h : f.id = ""
    · have hskip : addFunc init f = init := by simp [addFunc, h]
      simp only [List.foldl_cons, List.filter_cons, h, hskip]
      simpa using ih init
    · simp only [List.foldl_cons, List.filter_cons, h]
      simpa [h] using ih (addFunc init f)

/-- C3 (amended): graph construction skips every raw function record
whose id is missing or empty and continues the run with the remaining
records — the built result is identical to the result of building from
only the records with a non-empty id. (No count of skipped records is
reported to the caller; see `C3_no_skip_count_reported`.) -/
theorem C3_skip_empty_id_records (functions : List RawFunc) (relationships : List RawRel) :
    build_components functions relationships =
      build_components (functions.filter (fun f => decide (f.id ≠ ""))) relationships := by
  unfold build_components
  rw [← foldl_addFunc_filter]

/-- C5: a candidate set whose full listing has a token count at or below
`MAX_TOKEN_PER_MODULE` makes `cluster_modules` return the empty tree at
once (cluster_modules.py lines 55–56): the state — including the oracle
call log, the module tree and the path — is returned exactly as it was,
so the oracle is never consulted and no subdivision happens. -/
theorem C5_budget_base_case (fuel : Nat) (env : ClusterEnv) (leaf_nodes : List String)
    (components : List (String × Node)) (current_module_name : Option String) (st : CState)
    (h : env.count_tokens (format_potential_core_components leaf_nodes components).2 ≤
      MAX_TOKEN_PER_MODULE) :
    cluster_modules (fuel + 1) env leaf_nodes components current_module_name st =
      Except.ok ([], st) := by
  simp [cluster_modules, h]

/-- A concrete class component for witnesses. -/
def mkTestClass (idv rp src : String) : Node :=
  { id := idv, name := idv, component_type := "class", file_path := rp,
    relative_path := rp, source_code := src, start_line := 1, end_line := 1,
    has_docstring := false, docstring := "", parameters := [], node_type := "class",
    base_classes := none, class_name := none, display_name := idv,
    component_id := idv, depends_on := [] }

def c5_components : List (String × Node) := [("a.A", mkTestClass "a.A" "a.py" "class A: pass")]

def c5_env : ClusterEnv :=
  { count_tokens := fun _ => 7,
    format_cluster_prompt := fun pcc _ _ => pcc,
    call_llm := fun _ => Except.error "transport should never be consulted" }

theorem C5_budget_base_case_witness :
    cluster_modules 1 c5_env ["a.A"] c5_components none ⟨[], [], []⟩ =
      Except.ok ([], ⟨[], [], []⟩) :=
  C5_budget_base_case 0 c5_env ["a.A"] c5_components none ⟨[], [], []⟩ (by decide)

theorem parse_grouped_response_fail_none (response : String)
    (hfail :
      (¬ (strContains response marker_open = true ∧ strContains response marker_close = true))
      ∨ (∃ e, (pyEval (extract_grouped response)).2 = Except.error e)
      ∨ (∀ d, (pyEval (extract_grouped response)).2 ≠ Except.ok (PyVal.dict d))) :
    (parse_grouped_response response).1 = none := by
  unfold parse_grouped_response
  by_cases hm : strContains response marker_open = true ∧ strContains response marker_close = true
  · rw [if_neg (not_not_intro hm)]
    rcases hpe : pyEval (extract_grouped response) with ⟨effects, res⟩
    rcases hfail with hf | ⟨e, he⟩ | hnd
    · exact absurd hm hf
    · rw [hpe] at he
      simp only at he
      subst he
      rfl
    · cases res with
      | error e => rfl
      | ok v =>
        cases v with
        | dict d => exact absurd (by rw [hpe]) (hnd d)
        | noneV => rfl
        | str s => rfl
        | int n => rfl
        | list l => rfl
  · rw [if_pos hm]

/-- C4: for every oracle response, if either marker is absent, or `eval`
of the enclosed text raises, or the evaluated payload is not a mapping,
`cluster_modules` returns the empty tree for that branch (the module
tree and the path are exactly as on entry; only the log grows by the
oracle call and any executions `eval` performed) and the result is a
normal `Except.ok` return — no exception reaches the caller. -/
theorem C4_malformed_response_returns_empty (fuel : Nat) (env : ClusterEnv)
    (leaf_nodes : List String) (components : List (String × Node))
    (current_module_name : Option String) (st : CState) (response : String)
    (hbudget : MAX_TOKEN_PER_MODULE <
      env.count_tokens (format_potential_core_components leaf_nodes components).2)
    (hresp : env.call_llm (env.format_cluster_prompt
      (format_potential_core_components leaf_nodes components).1 st.tree
      current_module_name) = Except.ok response)
    (hfail :
      (¬ (strContains response marker_open = true ∧ strContains response marker_close = true))
      ∨ (∃ e, (pyEval (extract_grouped response)).2 = Except.error e)
      ∨ (∀ d, (pyEval (extract_grouped response)).2 ≠ Except.ok (PyVal.dict d))) :
    cluster_modules (fuel + 1) env leaf_nodes components current_module_name st =
      Except.ok ([], { st with log := (st.log ++ ["llm:" ++ env.format_cluster_prompt
        (format_potential_core_components leaf_nodes components).1 st.tree
        current_module_name]) ++ (parse_grouped_response response).2 }) := by
  have hp := parse_grouped_response_fail_none response hfail
  have hpair : parse_grouped_response response =
      (none, (parse_grouped_response response).2) := Prod.ext hp rfl
  simp only [cluster_modules]
  rw [if_neg (Nat.not_le.mpr hbudget)]
  simp only [hresp]
  rw [hpair]

/-- C6: an oracle response whose payload evaluates to a mapping with one
or fewer top-level groups is rejected exactly like the budget base case:
`cluster_modules` returns the empty tree by a normal return and leaves
the module tree and path unmodified (only the log grows). -/
theorem C6_degenerate_grouping_returns_empty (fuel : Nat) (env : ClusterEnv)
    (leaf_nodes : List String) (components : List (String × Node))
    (current_module_name : Option String) (st : CState) (response : String)
    (module_tree : List (String × PyVal)) (effects : List String)
    (hbudget : MAX_TOKEN_PER_MODULE <
      env.count_tokens (format_potential_core_components leaf_nodes components).2)
    (hresp : env.call_llm (env.format_cluster_prompt
      (format_potential_core_components leaf_nodes components).1 st.tree
      current_module_name) = Except.ok response)
    (hparse : parse_grouped_response response = (some module_tree, effects))
    (hlen : module_tree.length ≤ 1) :
    cluster_modules (fuel + 1) env leaf_nodes components current_module_name st =
      Except.ok ([], { st with log := (st.log ++ ["llm:" ++ env.format_cluster_prompt
        (format_potential_core_components leaf_nodes components).1 st.tree
        current_module_name]) ++ effects }) := by
  simp only [cluster_modules]
  rw [if_neg (Nat.not_le.mpr hbudget)]
  simp only [hresp]
  rw [hparse]
  simp only [if_pos hlen]

def c4_env : ClusterEnv :=
  { count_tokens := fun _ => MAX_TOKEN_PER_MODULE + 1,
    format_cluster_prompt := fun pcc _ _ => pcc,
    call_llm := fun _ => Except.ok "the oracle declined to answer properly" }

theorem C4_malformed_response_returns_empty_witness :
    cluster_modules 1 c4_env [] [] none ⟨[], [], []⟩ =
      Except.ok ([], ⟨[], [], ["llm:"]⟩) := by
  have h := C4_malformed_response_returns_empty 0 c4_env [] [] none ⟨[], [], []⟩
    "the oracle declined to answer properly" (by decide) rfl (Or.inl (by decide))
  exact h

def c6_response : String :=
  "<GROUPED_COMPONENTS>\x7b\"All\": \x7b\x7d\x7d</GROUPED_COMPONENTS>"

def c6_env : ClusterEnv :=
  { count_tokens := fun _ => MAX_TOKEN_PER_MODULE + 1,
    format_cluster_prompt := fun pcc _ _ => pcc,
    call_llm := fun _ => Except.ok c6_response }

theorem C6_degenerate_grouping_returns_empty_witness :
    cluster_modules 1 c6_env [] [] none ⟨[("kept", PyVal.int 1)], ["p"], []⟩ =
      Except.ok ([], ⟨[("kept", PyVal.int 1)], ["p"], ["llm:"]⟩) := by
  have h := C6_degenerate_grouping_returns_empty 0 c6_env [] [] none
    ⟨[("kept", PyVal.int 1)], ["p"], []⟩ c6_response [("All", PyVal.dict [])] []
    (by decide) rfl rfl (by decide)
  exact h

theorem mem_setAdd {s : List String} {x y : String} (h : y ∈ setAdd s x) :
    y ∈ s ∨ y = x := by
  unfold setAdd at h
  split at h
  · exact Or.inl h
  · rcases List.mem_append.mp h with h1 | h1
    · exact Or.inl h1
    · exact Or.inr (List.mem_singleton.mp h1)

/-- Invariant of the function loop: every value of the id-resolution
index is a key of the component map, and every built node still has an
empty `depends_on` set. -/
def BuildInv (bs : BuildState) : Prop :=
  (∀ k v, dictGet bs.component_id_mapping k = some v →
    (dictGet bs.components v).isSome)
  ∧ (∀ k n, dictGet bs.components k = some n → n.depends_on = [])

theorem mappingAfter_values (mapping : List (String × String)) (f : RawFunc)
    (k v : String) (h : dictGet (mappingAfter mapping f) k = some v) :
    v = f.id ∨ dictGet mapping k = some v := by
  unfold mappingAfter at h
  split at h
  · rcases dictGet_dictSet_cases _ _ _ _ _ h with ⟨_, hv⟩ | h2
    · exact Or.inl hv
    · rcases dictGet_dictSet_cases _ _ _ _ _ h2 with ⟨_, hv⟩ | h3
      · exact Or.inl hv
      · exact Or.inr h3
  · rcases dictGet_dictSet_cases _ _ _ _ _ h with ⟨_, hv⟩ | h2
    · exact Or.inl hv
    · exact Or.inr h2

theorem addFunc_inv (bs : BuildState) (f : RawFunc) (h : BuildInv bs) :
    BuildInv (addFunc bs f) := by
  unfold addFunc
  by_cases hid : f.id = ""
  · simpa [hid] using h
  · rw [if_neg hid]
    refine ⟨?_, ?_⟩
    · intro k v hkv
      rcases mappingAfter_values _ _ _ _ hkv with hv | hv
      · subst hv
        rw [dictGet_dictSet_self]
        rfl
      · exact isSome_dictGet_dictSet _ _ _ _ (h.1 k v hv)
    · intro k n hkn
      rcases dictGet_dictSet_cases _ _ _ _ _ hkn with ⟨_, hn⟩ | h2
      · subst hn
        rfl
      · exact h.2 k n h2

theorem foldl_addFunc_inv (functions : List RawFunc) (bs : BuildState)
    (h : BuildInv bs) : BuildInv (functions.foldl addFunc bs) := by
  induction functions generalizing bs with
  | nil => exact h
  | cons f rest ih =>
    rw [List.foldl_cons]
    exact ih _ (addFunc_inv _ _ h)

/-- Invariant of the relationship loop: index values resolve to keys of
the component map, and every `depends_on` entry of every node is a key
of the component map. -/
def GraphInv (mapping : List (String × String)) (cs : List (String × Node)) : Prop :=
  (∀ k v, dictGet mapping k = some v → (dictGet cs v).isSome)
  ∧ (∀ k n, dictGet cs k = some n → ∀ d ∈ n.depends_on, (dictGet cs d).isSome)

theorem resolveCallee_isSome (cs : List (String × Node))
    (mapping : List (String × String)) (callee_id cid : String)
    (h1 : ∀ k v, dictGet mapping k = some v → (dictGet cs v).isSome)
    (h : resolveCallee cs mapping callee_id = some cid) :
    (dictGet cs cid).isSome := by
  unfold resolveCallee at h
  cases hm : dictGet mapping callee_id with
  | some c =>
    rw [hm] at h
    obtain rfl : c = cid := Option.some_inj.mp h
    exact h1 _ _ hm
  | none =>
    rw [hm] at h
    cases hf : cs.find? (fun p => decide (p.2.name = callee_id)) with
    | none =>
      rw [hf] at h
      exact Option.noConfusion h
    | some p =>
      rw [hf] at h
      obtain rfl : p.1 = cid := Option.some_inj.mp h
      exact isSome_dictGet_of_mem _ _ p.2 (List.mem_of_find?_eq_some hf)

theorem applyRel_inv (cs : List (String × Node)) (mapping : List (String × String))
    (rel : RawRel) (h : GraphInv mapping cs) :
    GraphInv mapping (applyRel cs mapping rel) := by
  unfold applyRel
  cases hc : dictGet mapping rel.caller with
  | none => exact h
  | some caller_cid =>
    cases hcn : dictGet cs caller_cid with
    | none =>
      simp only [hcn]
      exact h
    | some caller_node =>
      cases hce : resolveCallee cs mapping rel.callee with
      | none =>
        simp only [hcn, hce]
        exact h
      | some callee_cid =>
        simp only [hcn, hce]
        have hcal : (dictGet cs callee_cid).isSome :=
          resolveCallee_isSome _ _ _ _ h.1 hce
        refine ⟨?_, ?_⟩
        · intro k v hkv
          exact isSome_dictGet_dictSet _ _ _ _ (h.1 k v hkv)
        · intro k n hkn d hd
          rcases dictGet_dictSet_cases _ _ _ _ _ hkn with ⟨_, hn⟩ | h2
          · subst hn
            rcases mem_setAdd hd with hdo | hdc
            · exact isSome_dictGet_dictSet _ _ _ _
                (h.2 caller_cid caller_node hcn d hdo)
            · subst hdc
              exact isSome_dictGet_dictSet _ _ _ _ hcal
          · exact isSome_dictGet_dictSet _ _ _ _ (h.2 k n h2 d hd)

theorem foldl_applyRel_inv (rels : List RawRel) (mapping : List (String × String))
    (cs : List (String × Node)) (h : GraphInv mapping cs) :
    GraphInv mapping (rels.foldl (fun c r => applyRel c mapping r) cs) := by
  induction rels generalizing cs with
  | nil => exact h
  | cons r rest ih =>
    rw [List.foldl_cons]
    exact ih _ (applyRel_inv _ _ _ h)

/-- C7: after graph construction every entry of every
`depends_on` set is a key of the component map — an edge whose caller
does not resolve, or whose callee resolves neither through the index
(canonical or legacy id) nor through the bare-name linear scan, is
discarded and appears in no `depends_on` set. -/
theorem C7_depends_on_entries_resolve (functions : List RawFunc)
    (relationships : List RawRel) (idv : String) (n : Node)
    (hn : dictGet (build_components functions relationships) idv = some n) :
    ∀ d ∈ n.depends_on,
      (dictGet (build_components functions relationships) d).isSome := by
  have hinv : BuildInv (functions.foldl addFunc ⟨[], [], []⟩) :=
    foldl_addFunc_inv functions ⟨[], [], []⟩
      ⟨fun _ _ h => Option.noConfusion h, fun _ _ h => Option.noConfusion h⟩
  have hg : GraphInv (functions.foldl addFunc ⟨[], [], []⟩).component_id_mapping
      (functions.foldl addFunc ⟨[], [], []⟩).components := by
    refine ⟨hinv.1, ?_⟩
    intro k m hkm d hd
    rw [hinv.2 k m hkm] at hd
    exact absurd hd (List.not_mem_nil d)
  have hfinal := foldl_applyRel_inv relationships _ _ hg
  intro d hd
  exact hfinal.2 idv n hn d hd

def c7_funcs : List RawFunc :=
  [{ id := "a.A", name := "A", file_path := "a.py" },
    { id := "b.B", name := "B", file_path := "b.py" }]

def c7_rels : List RawRel := [{ caller := "a.A", callee := "b.B" }]

theorem C7_depends_on_entries_resolve_witness :
    (dictGet (build_components c7_funcs c7_rels) "b.B").isSome := by
  have h := C7_depends_on_entries_resolve c7_funcs c7_rels "a.A" _ rfl "b.B" (by decide)
  exact h

theorem insertStripped_no_path (target groups t' s' : List (String × PyVal))
    (h : insertStripped target groups = Except.ok (t', s')) :
    ∀ p ∈ s', ∃ dd, Prod.snd p = PyVal.dict dd ∧ dictGet dd "path" = none := by
  induction groups generalizing target t' s' with
  | nil =>
    unfold insertStripped at h
    injection h with h1
    rw [Prod.mk.injEq] at h1
    obtain ⟨-, h3⟩ := h1
    intro p hp
    rw [← h3] at hp
    cases hp
  | cons g rest ih =>
    obtain ⟨gn, gv⟩ := g
    unfold insertStripped at h
    cases gvch : gv with
    | dict d =>
      rw [gvch] at h
      simp only at h
      by_cases hpk : (dictGet d "path").isSome
      · rw [if_pos hpk] at h
        cases hrec : insertStripped (dictSet target gn (PyVal.dict (dictDel d "path"))) rest with
        | ok pr =>
          rw [hrec] at h
          simp only at h
          injection h with h1
          rw [Prod.mk.injEq] at h1
          obtain ⟨-, h3⟩ := h1
          intro p hp
          rw [← h3] at hp
          rcases List.mem_cons.mp hp with hp1 | hp1
          · subst hp1
            exact ⟨dictDel d "path", rfl, dictGet_dictDel_self d "path"⟩
          · exact ih _ pr.1 pr.2 (by rw [hrec]) p hp1
        | error e =>
          rw [hrec] at h
          simp only at h
          exact absurd h (by simp)
      · rw [if_neg hpk] at h
        exact absurd h (by simp)
    | noneV => rw [gvch] at h; exact absurd h (by simp)
    | str sv => rw [gvch] at h; exact absurd h (by simp)
    | int nv => rw [gvch] at h; exact absurd h (by simp)
    | list lv => rw [gvch] at h; exact absurd h (by simp)

theorem mergeAt_no_path (tree : List (String × PyVal)) (path : List String)
    (groups t' s' : List (String × PyVal))
    (h : mergeAt tree path groups = Except.ok (t', s')) :
    ∀ p ∈ s', ∃ dd, Prod.snd p = PyVal.dict dd ∧ dictGet dd "path" = none := by
  induction path generalizing tree t' s' with
  | nil => exact insertStripped_no_path _ _ _ _ h
  | cons key rest ih =>
    unfold mergeAt at h
    cases hk : dictGet tree key with
    | none => rw [hk] at h; exact absurd h (by simp)
    | some v =>
      rw [hk] at h
      cases v with
      | dict entry =>
        simp only at h
        cases hc : dictGet entry "children" with
        | none => rw [hc] at h; exact absurd h (by simp)
        | some cv =>
          rw [hc] at h
          cases cv with
          | dict children =>
            simp only at h
            cases hrec : mergeAt children rest groups with
            | ok pr =>
              rw [hrec] at h
              simp only at h
              injection h with h1
              rw [Prod.mk.injEq] at h1
              obtain ⟨-, h3⟩ := h1
              intro p hp
              rw [← h3] at hp
              exact ih children pr.1 pr.2 (by rw [hrec]) p hp
            | error e => rw [hrec] at h; exact absurd h (by simp)
          | noneV => exact absurd h (by simp)
          | str sv => exact absurd h (by simp)
          | int nv => exact absurd h (by simp)
          | list lv => exact absurd h (by simp)
      | noneV => exact absurd h (by simp)
      | str sv => exact absurd h (by simp)
      | int nv => exact absurd h (by simp)
      | list lv => exact absurd h (by simp)

/-- Level-by-level characterization of a successful merge: at every
level the walk passes through (proper prefix `q` of the path followed by
segment `k`), all entries other than `k` keep their exact bindings —
subtrees included — and the entry at `k` keeps every field other than
`children`; and the stripped groups are inserted, by `insertStripped`,
precisely into the `children` dict reached by walking the full path. -/
theorem mergeAt_level_frame (path : List String)
    (tree groups t' s' : List (String × PyVal))
    (h : mergeAt tree path groups = Except.ok (t', s')) :
    (∀ q k r, path = q ++ k :: r →
      ∃ sub sub' entry entry',
        walkChildren tree q = Except.ok sub ∧ walkChildren t' q = Except.ok sub'
        ∧ (∀ name, name ≠ k → dictGet sub' name = dictGet sub name)
        ∧ dictGet sub k = some (PyVal.dict entry)
        ∧ dictGet sub' k = some (PyVal.dict entry')
        ∧ (∀ field, field ≠ "children" → dictGet entry' field = dictGet entry field))
    ∧ (∃ target target',
        walkChildren tree path = Except.ok target
        ∧ walkChildren t' path = Except.ok target'
        ∧ insertStripped target groups = Except.ok (target', s')) := by
  induction path generalizing tree t' s' with
  | nil =>
    unfold mergeAt at h
    refine ⟨?_, tree, t', rfl, rfl, h⟩
    intro q k r hq
    exact absurd hq (by simp)
  | cons key rest ih =>
    unfold mergeAt at h
    cases hk : dictGet tree key with
    | none => rw [hk] at h; exact absurd h (by simp)
    | some v =>
      rw [hk] at h
      cases v with
      | dict entry =>
        simp only at h
        cases hc : dictGet entry "children" with
        | none => rw [hc] at h; exact absurd h (by simp)
        | some cv =>
          rw [hc] at h
          cases cv with
          | dict children =>
            simp only at h
            cases hrec : mergeAt children rest groups with
            | ok pr =>
              rw [hrec] at h
              simp only at h
              injection h with h1
              rw [Prod.mk.injEq] at h1
              obtain ⟨ht, hs⟩ := h1
              subst ht
              subst hs
              obtain ⟨ihA, ihB⟩ := ih children pr.1 pr.2 hrec
              have hwt : ∀ qs, walkChildren tree (key :: qs) = walkChildren children qs := by
                intro qs
                simp only [walkChildren, hk, hc]
              have hwm : ∀ qs,
                  walkChildren (dictSet tree key
                    (PyVal.dict (dictSet entry "children" (PyVal.dict pr.1)))) (key :: qs)
                    = walkChildren pr.1 qs := by
                intro qs
                simp only [walkChildren, dictGet_dictSet_self]
              constructor
              · intro q k r hq
                cases q with
                | nil =>
                  simp only [List.nil_append] at hq
                  injection hq with hk1 hr1
                  subst hk1
                  subst hr1
                  refine ⟨tree, _, entry, _, rfl, rfl, ?_, hk,
                    dictGet_dictSet_self _ _ _, ?_⟩
                  · intro name hname
                    exact dictGet_dictSet_ne _ _ _ _ hname
                  · intro field hfield
                    exact dictGet_dictSet_ne _ _ _ _ hfield
                | cons qh qt =>
                  simp only [List.cons_append] at hq
                  injection hq with hk1 hr1
                  subst hk1
                  obtain ⟨sub, sub', entry1, entry1', hw1, hw2, hsib, hent, hent2, hfld⟩ :=
                    ihA qt k r hr1
                  refine ⟨sub, sub', entry1, entry1', ?_, ?_, hsib, hent, hent2, hfld⟩
                  · rw [hwt qt]
                    exact hw1
                  · rw [hwm qt]
                    exact hw2
              · obtain ⟨target, target', hw1, hw2, hins⟩ := ihB
                refine ⟨target, target', ?_, ?_, hins⟩
                · rw [hwt rest]
                  exact hw1
                · rw [hwm rest]
                  exact hw2
            | error e => rw [hrec] at h; exact absurd h (by simp)
          | noneV => exact absurd h (by simp)
          | str sv => exact absurd h (by simp)
          | int nv => exact absurd h (by simp)
          | list lv => exact absurd h (by simp)
      | noneV => exact absurd h (by simp)
      | str sv => exact absurd h (by simp)
      | int nv => exact absurd h (by simp)
      | list lv => exact absurd h (by simp)

/-- C8: when the merge step of `cluster_modules` inserts new groups into
a non-empty existing tree at a non-empty parent path, only the
`children` mapping under the entry reached by that path is mutated:
every root entry other than the one the path enters — together with its
entire subtree — is returned unchanged; at every level along the path
all sibling entries keep their exact bindings and the entry the path
passes through keeps every field other than `children`; the stripped
groups are inserted precisely into the `children` dict reached by
walking the full path; and every inserted group has its oracle-supplied
`path` field stripped. -/
theorem C8_merge_frame (tree : List (String × PyVal)) (key : String)
    (rest : List String) (groups t' s' : List (String × PyVal))
    (h : mergeAt tree (key :: rest) groups = Except.ok (t', s')) :
    (∀ name, name ≠ key → dictGet t' name = dictGet tree name)
    ∧ (∀ q k r, key :: rest = q ++ k :: r →
        ∃ sub sub' entry entry',
          walkChildren tree q = Except.ok sub ∧ walkChildren t' q = Except.ok sub'
          ∧ (∀ name, name ≠ k → dictGet sub' name = dictGet sub name)
          ∧ dictGet sub k = some (PyVal.dict entry)
          ∧ dictGet sub' k = some (PyVal.dict entry')
          ∧ (∀ field, field ≠ "children" → dictGet entry' field = dictGet entry field))
    ∧ (∃ target target',
        walkChildren tree (key :: rest) = Except.ok target
        ∧ walkChildren t' (key :: rest) = Except.ok target'
        ∧ insertStripped target groups = Except.ok (target', s'))
    ∧ (∀ p ∈ s', ∃ dd, Prod.snd p = PyVal.dict dd ∧ dictGet dd "path" = none) := by
  obtain ⟨hA, hB⟩ := mergeAt_level_frame (key :: rest) tree groups t' s' h
  refine ⟨?_, hA, hB, mergeAt_no_path _ _ _ _ _ h⟩
  intro name hname
  obtain ⟨sub, sub', -, -, hw1, hw2, hsib, -, -, -⟩ := hA [] key rest rfl
  injection hw1 with h1
  injection hw2 with h2
  subst h1
  subst h2
  exact hsib name hname

def c8_tree : List (String × PyVal) :=
  [("core", PyVal.dict
      [("description", PyVal.str "core"),
        ("children", PyVal.dict
          [("sub", PyVal.dict
              [("description", PyVal.str "s"), ("children", PyVal.dict [])]),
            ("subSib", PyVal.dict [("description", PyVal.str "sib")])])]),
    ("util", PyVal.dict [("description", PyVal.str "kept intact")])]

def c8_groups : List (String × PyVal) :=
  [("g1", PyVal.dict [("path", PyVal.list [PyVal.str "core"]), ("description", PyVal.str "d")])]

def c8_merged : List (String × PyVal) :=
  [("core", PyVal.dict
      [("description", PyVal.str "core"),
        ("children", PyVal.dict
          [("sub", PyVal.dict
              [("description", PyVal.str "s"),
                ("children", PyVal.dict
                  [("g1", PyVal.dict [("description", PyVal.str "d")])])]),
            ("subSib", PyVal.dict [("description", PyVal.str "sib")])])]),
    ("util", PyVal.dict [("description", PyVal.str "kept intact")])]

def c8_stripped : List (String × PyVal) :=
  [("g1", PyVal.dict [("description", PyVal.str "d")])]

theorem C8_merge_frame_witness :
    dictGet c8_merged "util" = dictGet c8_tree "util"
    ∧ (∃ target target',
        walkChildren c8_tree ["core", "sub"] = Except.ok target
        ∧ walkChildren c8_merged ["core", "sub"] = Except.ok target'
        ∧ insertStripped target c8_groups = Except.ok (target', c8_stripped))
    ∧ (∃ dd, Prod.snd ("g1", PyVal.dict [("description", PyVal.str "d")]) = PyVal.dict dd
        ∧ dictGet dd "path" = none) := by
  have h := C8_merge_frame c8_tree "core" ["sub"] c8_groups c8_merged c8_stripped rfl
  exact ⟨h.1 "util" (by decide), h.2.2.1,
    h.2.2.2 ("g1", PyVal.dict [("description", PyVal.str "d")])
      (List.mem_singleton.mpr rfl)⟩

theorem keep_leaf_step_cases (components : List (String × Node)) (acc : List String)
    (ln x : String) (hx : x ∈ keep_leaf_step components acc ln) :
    x ∈ acc ∨ ((∃ n, dictGet components x = some n ∧
      (n.component_type = "class" ∨ n.component_type = "interface" ∨
        n.component_type = "struct"))
      ∧ has_err_keyword x = false) := by
  unfold keep_leaf_step at hx
  split at hx
  · exact Or.inl hx
  · rename_i hcond
    cases hg : dictGet components ln with
    | none =>
      simp only [hg] at hx
      exact Or.inl hx
    | some node =>
      simp only [hg] at hx
      split at hx
      · rename_i htype
        rcases List.mem_append.mp hx with h1 | h1
        · exact Or.inl h1
        · have hxln : x = ln := List.mem_singleton.mp h1
          subst hxln
          refine Or.inr ⟨⟨node, hg, ?_⟩, ?_⟩
          · simpa using htype
          · cases hE : has_err_keyword x with
            | false => rfl
            | true => exact absurd (Or.inr hE) hcond
      · exact Or.inl hx

theorem keep_leaf_foldl_mem (components : List (String × Node)) (lns : List String)
    (acc : List String) (x : String)
    (hx : x ∈ lns.foldl (keep_leaf_step components) acc) :
    x ∈ acc ∨ ((∃ n, dictGet components x = some n ∧
      (n.component_type = "class" ∨ n.component_type = "interface" ∨
        n.component_type = "struct"))
      ∧ has_err_keyword x = false) := by
  induction lns generalizing acc with
  | nil => exact Or.inl hx
  | cons ln rest ih =>
    rw [List.foldl_cons] at hx
    rcases ih _ hx with h | h
    · exact keep_leaf_step_cases _ _ _ _ h
    · exact Or.inr h

/-- C10: the leaf filter of `DependencyGraphBuilder.build_dependency_graph`
returns only ids that are present in the component map with
`component_type` equal to `class`, `interface` or `struct`, and never
returns an id containing one of the error keywords — leaf components of
any other type, and error-keyword ids, are dropped from the returned
list. -/
theorem C10_leaf_filter (leaf_nodes : List String) (components : List (String × Node))
    (x : String) (hx : x ∈ keep_leaf_nodes leaf_nodes components) :
    (∃ n, dictGet components x = some n ∧
      (n.component_type = "class" ∨ n.component_type = "interface" ∨
        n.component_type = "struct"))
    ∧ has_err_keyword x = false := by
  rcases keep_leaf_foldl_mem components leaf_nodes [] x hx with h | h
  · cases h
  · exact h

def c10_components : List (String × Node) :=
  [("a.A", mkTestClass "a.A" "a.py" "class A: pass")]

theorem C10_leaf_filter_witness :
    (∃ n, dictGet c10_components "a.A" = some n ∧
      (n.component_type = "class" ∨ n.component_type = "interface" ∨
        n.component_type = "struct"))
    ∧ has_err_keyword "a.A" = false :=
  C10_leaf_filter ["a.A", "x.DataError"] c10_components "a.A" (by decide)

def c9_components : List (String × Node) :=
  [("a.A", mkTestClass "a.A" "a.py" "SA"), ("b.B", mkTestClass "b.B" "b.py" "SB")]

/-- C9 failing input: a well-formed two-group response to the first
oracle call; the recursive call for group `g1` then hits an oracle
transport failure (the raised exception of `call_llm`). -/
def c9_response : String :=
  "<GROUPED_COMPONENTS>\x7b\"g1\": \x7b\"path\": [], \"components\": [\"a.A\"], \"description\": \"d1\"\x7d, \"g2\": \x7b\"path\": [], \"components\": [\"b.B\"], \"description\": \"d2\"\x7d\x7d</GROUPED_COMPONENTS>"

def c9_env : ClusterEnv :=
  { count_tokens := fun _ => MAX_TOKEN_PER_MODULE + 1,
    format_cluster_prompt := fun pcc _ _ => pcc,
    call_llm := fun prompt =>
      if prompt = (format_potential_core_components ["a.A", "b.B"] c9_components).1 then
        Except.ok c9_response
      else Except.error "network unreachable" }

set_option maxRecDepth 8000 in
/-- C9: the claim says every invocation of `cluster_modules` restores
`current_module_path` on every exit path, including exits caused by
oracle transport failures during the recursive calls. The loop pushes
the group name and pops it only after a normal return (lines 111–114,
with no `try`/`finally`), so when the recursive call for group `g1`
raises a transport error, the invocation that entered with the empty
path exits with the path still holding `"g1"`. -/
theorem C9_path_not_restored :
    ∃ e s, cluster_modules 3 c9_env ["a.A", "b.B"] c9_components none ⟨[], [], []⟩ =
      Except.error (e, s) ∧ s.path = ["g1"] := by
  refine ⟨"network unreachable", _, rfl, rfl⟩

end CodeWiki
